import Mathlib

/-!
Shallow embedding of the client-side state and search engine of the
cfrSniff repository (`src/frontend/src/app/services/ecfr.service.ts`),
together with theorems settling the specification claims about it.

Strings are embedded as Lean `String` (sequences of characters);
JavaScript's `toLowerCase`/`includes` on them are embedded as character-wise
functions below.  Machine numbers that the code only compares, renders and
stores (title numbers, word counts) are embedded as `Nat`; the change-log
`difference` field, which may be negative, as `Int`.  Asynchronous fetches
are embedded by passing the settled outcome of each request explicitly
(`Option` = success / caught failure), and each `async` method of the
service becomes one function per atomic state transition: the synchronous
prefix that runs before the first `await`, and the state update performed
when its fetches have settled.
-/

namespace CfrSniff

/-- Character-wise lower-casing, embedding JavaScript `toLowerCase` on the
character sequences the engine actually handles. -/
def lowerStr (s : String) : String := String.mk (s.data.map Char.toLower)

/-- `leadsWith sub l` holds when `sub` is an initial segment of `l`. -/
def leadsWith : List Char → List Char → Bool
  | [], _ => true
  | _ :: _, [] => false
  | x :: xs, y :: ys => x == y && leadsWith xs ys

/-- `subMatch l sub`: `sub` occurs contiguously inside `l`
(JavaScript `String.prototype.includes` on character lists). -/
def subMatch (l sub : List Char) : Bool :=
  (List.range (l.length + 1)).any (fun i => leadsWith sub (l.drop i))

/-- `strContains s sub`: JavaScript `s.includes(sub)`. -/
def strContains (s sub : String) : Bool := subMatch s.data sub.data

/-- A CFR reference of an agency (`models/agency.model.ts`).  The optional
`chapter`/`subtitle` presentation fields, which no modelled operation reads,
are omitted. -/
structure CFRReference where
  title : Nat
deriving Repr, DecidableEq

/-- An agency node (`models/agency.model.ts`): a rose tree carrying the
fields the service reads.  `display_name` is optional because the service
guards it with `agency.display_name || agency.name`; the presentation-only
fields `short_name` and `sortable_name`, which no modelled operation reads,
are omitted. -/
inductive Agency where
  | mk (name : String) (display_name : Option String) (slug : String)
       (cfr_references : List CFRReference) (children : List Agency)

def Agency.name : Agency → String
  | .mk n _ _ _ _ => n

def Agency.display_name : Agency → Option String
  | .mk _ d _ _ _ => d

def Agency.slug : Agency → String
  | .mk _ _ s _ _ => s

def Agency.cfr_references : Agency → List CFRReference
  | .mk _ _ _ r _ => r

def Agency.children : Agency → List Agency
  | .mk _ _ _ _ cs => cs

/-- `(agency.display_name || agency.name) || ''` from `searchAgencies`:
the display name, falling back to `name` when the display name is absent or
empty (both are falsy in JavaScript). -/
def displayOrName : Agency → String
  | .mk n d _ _ _ =>
    match d with
    | some s => if s = "" then n else s
    | none => n

/-- The per-node matching predicate of `searchAgencies` (the query is
already lower-cased by the caller): the lower-cased display name contains
the query, or some CFR reference's title number rendered as a string
contains the query. -/
def agencyMatches (q : String) (a : Agency) : Bool :=
  strContains (lowerStr (displayOrName a)) q ||
    (a.cfr_references).any (fun r => strContains (Nat.repr r.title) q)

/-- `ECFRService.searchAgencies`: the forest returned by the recursive
filter.  A node that matches directly is returned as-is (the code returns
`true` from the filter callback without visiting its children); a node that
does not match is returned, with its `children` replaced by the recursively
filtered children, exactly when that filtered list is non-empty. -/
def searchAgencies (q : String) : List Agency → List Agency
  | [] => []
  | Agency.mk n d s r cs :: rest =>
    if agencyMatches q (Agency.mk n d s r cs) then
      Agency.mk n d s r cs :: searchAgencies q rest
    else if 0 < (searchAgencies q cs).length then
      Agency.mk n d s r (searchAgencies q cs) :: searchAgencies q rest
    else
      searchAgencies q rest
termination_by as => sizeOf as

/-- The post-call state of the nodes of the forest handed to
`searchAgencies`.  The TypeScript filter callback executes
`agency.children = matchingChildren` on every node that fails the direct
match but has a non-empty filtered children list, so such a node's
`children` field is overwritten in place; every other node is left intact
(a directly matching node is never recursed into, and an excluded node has
no matching descendant, hence no assignment anywhere below it). -/
def searchAgenciesPost (q : String) : List Agency → List Agency
  | [] => []
  | Agency.mk n d s r cs :: rest =>
    (if agencyMatches q (Agency.mk n d s r cs) then
      Agency.mk n d s r cs
     else if 0 < (searchAgencies q cs).length then
      Agency.mk n d s r (searchAgencies q cs)
     else
      Agency.mk n d s r cs) :: searchAgenciesPost q rest
termination_by as => sizeOf as

/-- The `filteredAgencies` computed view: lower-case the query; an empty
(lower-cased) query returns the stored forest itself, otherwise the forest
is run through `searchAgencies`. -/
def filteredAgencies (agencies : List Agency) (searchQuery : String) :
    List Agency :=
  if lowerStr searchQuery = "" then agencies
  else searchAgencies (lowerStr searchQuery) agencies

/-- The post-call state of the stored agency forest after the
`filteredAgencies` computation: untouched for an empty query, otherwise as
mutated by `searchAgencies`. -/
def filteredAgenciesPost (agencies : List Agency) (searchQuery : String) :
    List Agency :=
  if lowerStr searchQuery = "" then agencies
  else searchAgenciesPost (lowerStr searchQuery) agencies

/-- Some node of the forest, or of a descendant level of it, matches the
query. -/
def hasMatchDesc (q : String) : List Agency → Bool
  | [] => false
  | Agency.mk n d s r cs :: rest =>
    agencyMatches q (Agency.mk n d s r cs) || hasMatchDesc q cs ||
      hasMatchDesc q rest
termination_by as => sizeOf as

/-- The literal reading of the no-false-inclusion property: every node of
the forest, at every level, matches directly or has a matching descendant
(within this forest). -/
def soundStrict (q : String) : List Agency → Bool
  | [] => true
  | Agency.mk n d s r cs :: rest =>
    (agencyMatches q (Agency.mk n d s r cs) || hasMatchDesc q cs) &&
      soundStrict q cs && soundStrict q rest
termination_by as => sizeOf as

/-- The no-false-inclusion property as the code satisfies it: every node
matches directly, has a matching descendant, or sits below a directly
matching node (`under` records the latter while descending). -/
def soundR (q : String) (under : Bool) : List Agency → Bool
  | [] => true
  | Agency.mk n d s r cs :: rest =>
    (under || agencyMatches q (Agency.mk n d s r cs) || hasMatchDesc q cs) &&
      soundR q (under || agencyMatches q (Agency.mk n d s r cs)) cs &&
      soundR q under rest
termination_by as => sizeOf as

mutual
/-- `PrunedN b a`: node `b` is node `a` with all scalar fields intact and
its children forest pruned (order-preservingly), possibly not at all. -/
inductive PrunedN : Agency → Agency → Prop where
  | keep (a : Agency) : PrunedN a a
  | prune (n : String) (d : Option String) (s : String)
      (r : List CFRReference) (cs cs2 : List Agency) :
      PrunedF cs2 cs → PrunedN (Agency.mk n d s r cs2) (Agency.mk n d s r cs)

/-- `PrunedF out src`: forest `out` keeps a subsequence of `src`'s nodes in
their original order, each kept node related to its original by `PrunedN`
— i.e. `out` is `src` with some nodes dropped and some children forests
pruned, never reordered or invented. -/
inductive PrunedF : List Agency → List Agency → Prop where
  | nil : PrunedF [] []
  | skip (a : Agency) (out rest : List Agency) :
      PrunedF out rest → PrunedF out (a :: rest)
  | cons (b a : Agency) (out rest : List Agency) :
      PrunedN b a → PrunedF out rest → PrunedF (b :: out) (a :: rest)
end

/-- Word-count response for one title (`TitleWordCountResponse`): a missing
`word_count` and a zero one are indistinguishable to the code's falsiness
guard `!response?.word_count`, so both are embedded as `0`; a missing
`date` is embedded as `""` (falsy, like the absent value). -/
structure TitleWordCountResponse where
  word_count : Nat
  date : String
deriving Repr, DecidableEq

/-- One loaded title entry (`TitleData`). -/
structure TitleData where
  title : Nat
  wordCount : Nat
  lastUpdated : String
deriving Repr, DecidableEq

/-- One historical word-count sample (`HistoricalData`). -/
structure HistoricalData where
  date : String
  wordCount : Nat
deriving Repr, DecidableEq

/-- One change-log entry (`TitleChange`).  The opaque `titles: any[]`
payload, which the service never reads, is omitted. -/
structure TitleChange where
  date : String
  title_count : Nat
  difference : Int
deriving Repr, DecidableEq

/-- The service's signal state. -/
structure EState where
  agencies : List Agency
  selectedAgency : Option Agency
  selectedTitle : Option Nat
  selectedAgencyHistory : List HistoricalData
  selectedAgencyChanges : List TitleChange
  titleData : List TitleData
  searchQuery : String

/-- `response.date || new Date().toISOString()`: the response's date, or
the current time `now` when the date is absent/empty. -/
def dateOr (d now : String) : String := if d = "" then now else d

/-- `updateSearch`. -/
def updateSearch (q : String) (s : EState) : EState :=
  { s with searchQuery := q }

/-- The synchronous prefix of `selectAgency(agency)` — every state write
that happens before the first suspension point: the agency is stored, the
selected title is cleared, and (inside the synchronously started
`loadTitleData`) `titleData` is cleared early when the agency has no CFR
references.  Nothing else is written before the fetches settle. -/
def selectAgencySync (a : Agency) (s : EState) : EState :=
  let s1 := { s with selectedAgency := some a, selectedTitle := none }
  if (a.cfr_references).isEmpty then { s1 with titleData := [] } else s1

/-- The state update `loadAgencyHistory` performs once its fetch settles:
the fetched list (normalised with `data || []`) on success, `[]` on a
caught failure. -/
def loadAgencyHistory (r : Option (List HistoricalData)) (s : EState) :
    EState :=
  { s with selectedAgencyHistory := r.getD [] }

/-- The state update `loadAgencyChanges` performs once its fetch settles. -/
def loadAgencyChanges (r : Option (List TitleChange)) (s : EState) :
    EState :=
  { s with selectedAgencyChanges := r.getD [] }

/-- `Array.from(new Set(titles))`: deduplication preserving first
occurrences; `seen` accumulates the values already emitted. -/
def uniqueAux : List Nat → List Nat → List Nat
  | [], _ => []
  | x :: xs, seen =>
    if x ∈ seen then uniqueAux xs seen else x :: uniqueAux xs (x :: seen)

/-- The deduplicated title list of `loadTitleData`. -/
def uniqueTitles (titles : List Nat) : List Nat := uniqueAux titles []

/-- The batching loop of `loadTitleData`: successive slices of at most 5
titles, in order. -/
def batches : List Nat → List (List Nat)
  | [] => []
  | x :: xs => ((x :: xs).take 5) :: batches ((x :: xs).drop 5)
termination_by l => l.length
decreasing_by simp; omega

/-- The per-title fetch closure inside `loadTitleData`: `oracle t` is the
settled outcome of `GET /title/{t}/word-count` (`none` = caught error); a
response whose `word_count` is missing/zero yields `null`, embedded as
`none`; otherwise a `TitleData` entry is built. -/
def fetchTitleData (oracle : Nat → Option TitleWordCountResponse)
    (now : String) (t : Nat) : Option TitleData :=
  match oracle t with
  | none => none
  | some resp =>
    if resp.word_count = 0 then none
    else some ⟨t, resp.word_count, dateOr resp.date now⟩

/-- The `allTitleData` list `loadTitleData` accumulates: empty when the
agency references no titles; otherwise, batch by batch in order, the
successful fetches of that batch (`batchResults.filter(≠ null)`),
concatenated. -/
def loadTitleDataResult (oracle : Nat → Option TitleWordCountResponse)
    (now : String) (titles : List Nat) : List TitleData :=
  if titles.isEmpty then []
  else
    ((batches (uniqueTitles titles)).map
      (fun b => b.filterMap (fetchTitleData oracle now))).flatten

/-- The state update `loadTitleData(agency)` performs once all its batches
have settled: `titleData` is set to the accumulated result. -/
def loadTitleData (oracle : Nat → Option TitleWordCountResponse)
    (now : String) (a : Agency) (s : EState) : EState :=
  { s with titleData :=
      loadTitleDataResult oracle now ((a.cfr_references).map (·.title)) }

/-- The synchronous prefix of `selectTitle(title)`: the title is stored
unconditionally — the code performs no validation against the selected
agency — and the single-title fetch is issued. -/
def selectTitleSync (t : Nat) (s : EState) : EState :=
  { s with selectedTitle := some t }

/-- The state update `loadTitleWordCount(title)` performs once its fetch
settles (`r` = settled outcome, `none` = caught error): on a usable
response, every `titleData` entry whose `title` equals the fetched one is
rebuilt with the new word count and date, all others are kept as they are;
on a caught error or a missing/zero `word_count` nothing is written. -/
def loadTitleWordCount (t : Nat) (r : Option TitleWordCountResponse)
    (now : String) (s : EState) : EState :=
  match r with
  | none => s
  | some resp =>
    if resp.word_count = 0 then s
    else
      { s with titleData := s.titleData.map (fun td =>
          if td.title = t then
            { td with wordCount := resp.word_count,
                      lastUpdated := dateOr resp.date now }
          else td) }

/-! Concrete data used by counterexamples and witnesses. -/

/-- A child agency whose name matches the query `"alpha"`. -/
def alphaAgency : Agency := .mk "Alpha Agency" none "alpha" [] []

/-- A child agency matching neither `"alpha"` nor `"parent"`. -/
def betaAgency : Agency := .mk "Beta Agency" none "beta" [] []

/-- A root that does not match `"alpha"` but has the matching child
`alphaAgency` and the non-matching child `betaAgency`. -/
def rootForest : List Agency :=
  [.mk "Root Department" none "root" [] [alphaAgency, betaAgency]]

/-- An agency with one CFR reference. -/
def epaAgency : Agency :=
  .mk "Environmental Protection Agency" none "epa" [⟨40⟩] []

/-- A state holding the previous agency's loaded collections. -/
def loadedState : EState :=
  { agencies := [], selectedAgency := none, selectedTitle := some 7,
    selectedAgencyHistory := [⟨"2024-01-01", 5⟩],
    selectedAgencyChanges := [⟨"2024-01-01", 1, 2⟩],
    titleData := [⟨7, 1000, "2024-01-01"⟩], searchQuery := "" }

/-- A state with no selected agency and one loaded title entry. -/
def idleState : EState :=
  { agencies := [], selectedAgency := none, selectedTitle := none,
    selectedAgencyHistory := [], selectedAgencyChanges := [],
    titleData := [⟨1, 50, "2024-01-01"⟩], searchQuery := "" }

/-- A child that does not match the query `"parent"`. -/
def widgetAgency : Agency := .mk "Widget Office" none "widget" [] []

/-- A parent that matches `"parent"` directly, with the non-matching child
`widgetAgency`. -/
def parentAgency : Agency :=
  .mk "Parent Department" none "parent" [] [widgetAgency]

/-- The one-root forest around `parentAgency`. -/
def parentForest : List Agency := [parentAgency]

/-- A one-node forest whose name contains no whitespace. -/
def xForest : List Agency := [.mk "x" none "x" [] []]

/-- A root matching `"root"` with a child matching nothing. -/
def leafForest : List Agency :=
  [.mk "Root Office" none "rootoff" []
    [.mk "Leaf Office" none "leaf" [] []]]

/-- A fetch outcome oracle on which title 5 fails and every other title
succeeds with a non-zero word count. -/
def failFiveOracle : Nat → Option TitleWordCountResponse :=
  fun t => if t = 5 then none else some ⟨100 * t, "2024-01-01"⟩

/-- A state with two loaded title entries, for titles 3 and 4. -/
def twoTitleState : EState :=
  { agencies := [], selectedAgency := none, selectedTitle := some 3,
    selectedAgencyHistory := [], selectedAgencyChanges := [],
    titleData := [⟨3, 10, "2024-01-01"⟩, ⟨4, 20, "2024-01-02"⟩],
    searchQuery := "" }

/-! Helper lemmas. -/

/-- Lower-casing the empty string gives the empty string, and only then. -/
theorem lowerStr_ne_empty (q : String) (h : q ≠ "") : lowerStr q ≠ "" := by
  cases q with
  | mk data =>
    cases data with
    | nil => exact absurd rfl h
    | cons c cs =>
      intro hc
      have := congrArg String.data hc
      simp [lowerStr] at this

/-- Below a directly matching node every forest is relaxedly sound. -/
theorem soundR_of_under (q : String) :
    (as : List Agency) → soundR q true as = true
  | [] => by rw [soundR]
  | Agency.mk n d s r cs :: rest => by
    rw [soundR]
    simp only [Bool.true_or, Bool.true_and]
    rw [soundR_of_under q cs, soundR_of_under q rest]
    rfl
termination_by as => sizeOf as

/-- A non-empty filtered forest contains a matching node at some level. -/
theorem hasMatchDesc_searchAgencies (q : String) :
    (as : List Agency) → searchAgencies q as ≠ [] →
      hasMatchDesc q (searchAgencies q as) = true
  | [] => by
    rw [searchAgencies]
    intro h
    exact absurd rfl h
  | Agency.mk n d s r cs :: rest => by
    rw [searchAgencies]
    split
    · intro _
      rw [hasMatchDesc]
      simp_all
    · split
      · intro _
        rw [hasMatchDesc]
        have hne : searchAgencies q cs ≠ [] := by
          intro hnil
          simp_all
        rw [hasMatchDesc_searchAgencies q cs hne]
        simp
      · intro h
        exact hasMatchDesc_searchAgencies q rest h
termination_by as => sizeOf as

/-- The filtered forest is relaxedly sound: every node in it matches, has a
matching descendant in it, or sits below a direct match. -/
theorem soundR_searchAgencies (q : String) :
    (as : List Agency) → soundR q false (searchAgencies q as) = true
  | [] => by rw [searchAgencies]; rw [soundR]
  | Agency.mk n d s r cs :: rest => by
    rw [searchAgencies]
    split
    · rw [soundR]
      rename_i hm
      rw [hm]
      simp only [Bool.or_true, Bool.false_or, Bool.true_and, Bool.true_or]
      rw [soundR_of_under q cs, soundR_searchAgencies q rest]
      rfl
    · split
      · rw [soundR]
        rename_i hm hlen
        simp only [Bool.not_eq_true] at hm
        have hne : searchAgencies q cs ≠ [] := by
          intro hnil
          rw [hnil] at hlen
          simp at hlen
        have hmch : agencyMatches q (Agency.mk n d s r (searchAgencies q cs))
            = agencyMatches q (Agency.mk n d s r cs) := rfl
        rw [hmch, hm, hasMatchDesc_searchAgencies q cs hne]
        simp only [Bool.or_true, Bool.false_or, Bool.or_false, Bool.true_and]
        rw [soundR_searchAgencies q cs, soundR_searchAgencies q rest]
        rfl
      · exact soundR_searchAgencies q rest
termination_by as => sizeOf as

/-- The filtered forest keeps a subsequence of the input nodes in order at
every level, pruning children but never reordering or inventing nodes. -/
theorem prunedF_searchAgencies (q : String) :
    (as : List Agency) → PrunedF (searchAgencies q as) as
  | [] => by
    rw [searchAgencies]
    exact PrunedF.nil
  | Agency.mk n d s r cs :: rest => by
    rw [searchAgencies]
    split
    · exact PrunedF.cons _ _ _ _ (PrunedN.keep _) (prunedF_searchAgencies q rest)
    · split
      · exact PrunedF.cons _ _ _ _
          (PrunedN.prune n d s r cs _ (prunedF_searchAgencies q cs))
          (prunedF_searchAgencies q rest)
      · exact PrunedF.skip _ _ _ (prunedF_searchAgencies q rest)
termination_by as => sizeOf as

/-- Concatenating the batches in order restores the batched list. -/
theorem batches_flatten : (l : List Nat) → (batches l).flatten = l
  | [] => by rw [batches]; rfl
  | x :: xs => by
    rw [batches]
    rw [List.flatten_cons, batches_flatten ((x :: xs).drop 5)]
    exact List.take_append_drop 5 (x :: xs)
termination_by l => l.length
decreasing_by simp; omega

/-- Every batch holds at most 5 titles. -/
theorem batches_le5 : (l : List Nat) → (b : List Nat) →
    b ∈ batches l → b.length ≤ 5
  | [], b => by rw [batches]; intro h; exact absurd h (List.not_mem_nil b)
  | x :: xs, b => by
    rw [batches]
    intro h
    rcases List.mem_cons.mp h with h1 | h2
    · rw [h1]
      simp
    · exact batches_le5 ((x :: xs).drop 5) b h2
termination_by l => l.length
decreasing_by simp; omega

/-- No batch is empty. -/
theorem batches_ne_nil : (l : List Nat) → (b : List Nat) →
    b ∈ batches l → b ≠ []
  | [], b => by rw [batches]; intro h; exact absurd h (List.not_mem_nil b)
  | x :: xs, b => by
    rw [batches]
    intro h
    rcases List.mem_cons.mp h with h1 | h2
    · rw [h1]
      simp
    · exact batches_ne_nil ((x :: xs).drop 5) b h2
termination_by l => l.length
decreasing_by simp; omega

/-- Membership in the deduplicated list: present in the input and not yet
emitted. -/
theorem uniqueAux_mem (l : List Nat) : ∀ (seen : List Nat) (t : Nat),
    t ∈ uniqueAux l seen ↔ (t ∈ l ∧ t ∉ seen) := by
  induction l with
  | nil => intro seen t; simp [uniqueAux]
  | cons x xs ih =>
    intro seen t
    rw [uniqueAux]
    by_cases hx : x ∈ seen
    · rw [if_pos hx, ih seen t]
      constructor
      · rintro ⟨h1, h2⟩
        exact ⟨List.mem_cons_of_mem x h1, h2⟩
      · rintro ⟨h1, h2⟩
        rcases List.mem_cons.mp h1 with rfl | h3
        · exact absurd hx h2
        · exact ⟨h3, h2⟩
    · rw [if_neg hx]
      by_cases ht : t = x
      · subst ht
        constructor
        · intro _
          exact ⟨List.mem_cons_self t xs, hx⟩
        · intro _
          exact List.mem_cons_self t _
      · simp only [List.mem_cons, ht, false_or]
        rw [ih (x :: seen) t]
        simp [List.mem_cons, ht]

/-- The deduplicated list has no duplicates. -/
theorem uniqueAux_nodup (l : List Nat) : ∀ seen : List Nat,
    (uniqueAux l seen).Nodup := by
  induction l with
  | nil => intro seen; rw [uniqueAux]; exact List.nodup_nil
  | cons x xs ih =>
    intro seen
    rw [uniqueAux]
    by_cases hx : x ∈ seen
    · rw [if_pos hx]
      exact ih seen
    · rw [if_neg hx]
      refine List.nodup_cons.mpr ⟨?_, ih (x :: seen)⟩
      intro hmem
      exact ((uniqueAux_mem xs (x :: seen) x).mp hmem).2 (List.mem_cons_self x seen)

/-- Concatenating per-batch filtered results equals filtering the
concatenation. -/
theorem flatten_map_filterMap {α β : Type} (f : α → Option β) :
    (L : List (List α)) →
    (L.map (fun b => b.filterMap f)).flatten = L.flatten.filterMap f
  | [] => rfl
  | b :: bs => by
    simp only [List.map_cons, List.flatten_cons, List.filterMap_append,
      flatten_map_filterMap f bs]

/-- A successful per-title fetch carries exactly the requested title. -/
theorem fetchTitleData_title (oracle : Nat → Option TitleWordCountResponse)
    (now : String) (t : Nat) (td : TitleData)
    (h : fetchTitleData oracle now t = some td) : td.title = t := by
  unfold fetchTitleData at h
  cases ho : oracle t with
  | none =>
    rw [ho] at h
    exact Option.noConfusion (show (none : Option TitleData) = some td from h)
  | some resp =>
    rw [ho] at h
    have h2 : (if resp.word_count = 0 then (none : Option TitleData)
        else some ⟨t, resp.word_count, dateOr resp.date now⟩) = some td := h
    by_cases hz : resp.word_count = 0
    · rw [if_pos hz] at h2
      exact Option.noConfusion h2
    · rw [if_neg hz] at h2
      rw [← Option.some.inj h2]

/-- The titles of the successfully fetched entries are exactly the titles
whose fetch succeeded, in order. -/
theorem map_title_filterMap (oracle : Nat → Option TitleWordCountResponse)
    (now : String) : (u : List Nat) →
    (u.filterMap (fetchTitleData oracle now)).map TitleData.title =
      u.filter (fun t => (fetchTitleData oracle now t).isSome)
  | [] => rfl
  | t :: ts => by
    rw [List.filterMap_cons, List.filter_cons]
    cases h : fetchTitleData oracle now t with
    | none => simp only [h, Option.isSome_none, map_title_filterMap oracle now ts,
        Bool.false_eq_true, if_false]
    | some td =>
      simp only [h, Option.isSome_some, if_true, List.map_cons,
        map_title_filterMap oracle now ts,
        fetchTitleData_title oracle now t td h]

/-- Mapping a key-match update over entries none of which carry the key is
the identity. -/
theorem map_keymatch_id (t : Nat) (f : TitleData → TitleData) :
    (l : List TitleData) → (∀ td ∈ l, td.title ≠ t) →
    (l.map (fun td => if td.title = t then f td else td)) = l
  | [], _ => rfl
  | td :: tds, h => by
    rw [List.map_cons, if_neg (h td (List.mem_cons_self td tds)),
      map_keymatch_id t f tds (fun x hx => h x (List.mem_cons_of_mem td hx))]

/-- The accumulated result of `loadTitleData` is the in-order filterMap of
the per-title fetches over the deduplicated title list. -/
theorem loadTitleDataResult_eq (oracle : Nat → Option TitleWordCountResponse)
    (now : String) (titles : List Nat) :
    loadTitleDataResult oracle now titles =
      (uniqueTitles titles).filterMap (fetchTitleData oracle now) := by
  by_cases he : titles.isEmpty
  · rw [loadTitleDataResult, if_pos he]
    rw [List.isEmpty_iff.mp he]
    rfl
  · rw [loadTitleDataResult, if_neg he, flatten_map_filterMap, batches_flatten]

/-- Claim C7: `loadTitleData` deduplicates its input before fetching —
exactly one fetch per distinct title, keeping first-occurrence order — and
partitions the deduplicated titles, in order, into batches of at most 5
which its loop awaits one after the other; on the spec's example
`[1,1,2,3,4,5,6]` the fetch schedule is the two batches
`[[1,2,3,4,5],[6]]`. -/
theorem claim_c7 (titles : List Nat) :
    ((batches (uniqueTitles titles)).all
        (fun b => decide (b.length ≤ 5)) = true) ∧
    (batches (uniqueTitles titles)).flatten = uniqueTitles titles ∧
    (uniqueTitles titles).Nodup ∧
    (∀ t : Nat, t ∈ uniqueTitles titles ↔ t ∈ titles) ∧
    batches (uniqueTitles [1, 1, 2, 3, 4, 5, 6]) = [[1, 2, 3, 4, 5], [6]] := by
  refine ⟨?_, batches_flatten _, uniqueAux_nodup _ _, ?_, ?_⟩
  · exact List.all_eq_true.mpr
      (fun b hb => by simpa using batches_le5 (uniqueTitles titles) b hb)
  · intro t
    rw [uniqueTitles, uniqueAux_mem]
    simp
  · rw [show uniqueTitles [1, 1, 2, 3, 4, 5, 6] = [1, 2, 3, 4, 5, 6] by decide]
    rw [batches]
    rw [show ([1, 2, 3, 4, 5, 6] : List Nat).drop 5 = [6] by decide]
    rw [batches]
    rw [show ([6] : List Nat).drop 5 = ([] : List Nat) by decide]
    rw [batches]
    decide

/-- Claim C8: a per-title fetch failure or a missing/zero word count is
excluded from the result without aborting the remaining fetches: the
result is exactly the in-order list of successful entries, one per
successfully fetched distinct title, and the computation is total (no
exception reaches the caller); on the spec's example, titles
`[1,1,2,3,4,5,6]` with title 5 failing yield exactly the entries for
`1, 2, 3, 4, 6`. -/
theorem claim_c8 (oracle : Nat → Option TitleWordCountResponse)
    (now : String) (titles : List Nat) :
    loadTitleDataResult oracle now titles =
      (uniqueTitles titles).filterMap (fetchTitleData oracle now) ∧
    (loadTitleDataResult oracle now titles).map TitleData.title =
      (uniqueTitles titles).filter
        (fun t => (fetchTitleData oracle now t).isSome) ∧
    (loadTitleDataResult failFiveOracle "2024-10-10"
        [1, 1, 2, 3, 4, 5, 6]).map TitleData.title = [1, 2, 3, 4, 6] := by
  refine ⟨loadTitleDataResult_eq oracle now titles, ?_, ?_⟩
  · rw [loadTitleDataResult_eq]
    exact map_title_filterMap oracle now (uniqueTitles titles)
  · rw [loadTitleDataResult_eq]
    decide

/-- Claim C9: the single-title refresh, on a usable response, replaces
exactly the `titleData` entries whose `title` key matches the fetched
title and keeps every other entry identical, preserving length and order;
on a caught fetch failure, or a missing/zero word count, the whole state
is left unchanged, and nothing is thrown (every case is total). -/
theorem claim_c9 (t : Nat) (now : String) (s : EState)
    (resp : TitleWordCountResponse) (hwc : resp.word_count ≠ 0) :
    loadTitleWordCount t none now s = s ∧
    (∀ rz : TitleWordCountResponse, rz.word_count = 0 →
      loadTitleWordCount t (some rz) now s = s) ∧
    (loadTitleWordCount t (some resp) now s).titleData.length
        = s.titleData.length ∧
    ∀ i : Nat, ∀ old : TitleData, s.titleData[i]? = some old →
      (old.title ≠ t →
        (loadTitleWordCount t (some resp) now s).titleData[i]? = some old) ∧
      (old.title = t →
        (loadTitleWordCount t (some resp) now s).titleData[i]? =
          some ⟨old.title, resp.word_count, dateOr resp.date now⟩) := by
  have hsucc : (loadTitleWordCount t (some resp) now s).titleData =
      s.titleData.map (fun td => if td.title = t then
        { td with wordCount := resp.word_count,
                  lastUpdated := dateOr resp.date now } else td) := by
    have hred : loadTitleWordCount t (some resp) now s =
        if resp.word_count = 0 then s
        else { s with titleData := s.titleData.map (fun td =>
          if td.title = t then
            { td with wordCount := resp.word_count,
                      lastUpdated := dateOr resp.date now }
          else td) } := rfl
    rw [hred, if_neg hwc]
  refine ⟨rfl, ?_, ?_, ?_⟩
  · intro rz h0
    have hred : loadTitleWordCount t (some rz) now s =
        if rz.word_count = 0 then s
        else { s with titleData := s.titleData.map (fun td =>
          if td.title = t then
            { td with wordCount := rz.word_count,
                      lastUpdated := dateOr rz.date now }
          else td) } := rfl
    rw [hred, if_pos h0]
  · rw [hsucc]
    exact List.length_map _ _
  · intro i old hold
    constructor
    · intro hne
      rw [hsucc, List.getElem?_map, hold]
      show some (if old.title = t then
        { old with wordCount := resp.word_count,
                   lastUpdated := dateOr resp.date now } else old) = some old
      rw [if_neg hne]
    · intro heq
      rw [hsucc, List.getElem?_map, hold]
      show some (if old.title = t then
        { old with wordCount := resp.word_count,
                   lastUpdated := dateOr resp.date now } else old) =
        some ⟨old.title, resp.word_count, dateOr resp.date now⟩
      rw [if_pos heq]

/-- Witness for C9 at a concrete state: refreshing title 3 on the
two-entry state rewrites the title-3 entry and keeps the title-4 entry
exactly as it was. -/
theorem claim_c9_witness :
    (loadTitleWordCount 3 (some ⟨500, "2024-05-05"⟩) "now"
        twoTitleState).titleData[0]? = some ⟨3, 500, "2024-05-05"⟩ ∧
    (loadTitleWordCount 3 (some ⟨500, "2024-05-05"⟩) "now"
        twoTitleState).titleData[1]? = some ⟨4, 20, "2024-01-02"⟩ := by
  have h := claim_c9 3 "now" twoTitleState ⟨500, "2024-05-05"⟩ (by decide)
  constructor
  · have h0 := (h.2.2.2 0 ⟨3, 10, "2024-01-01"⟩ (by decide)).2 (by decide)
    simpa [dateOr] using h0
  · exact (h.2.2.2 1 ⟨4, 20, "2024-01-02"⟩ (by decide)).1 (by decide)

/-- Claim C10: the single-title refresh never adds an entry — when no
`titleData` entry carries the refreshed title, the key-matched map is the
identity and `titleData` is left exactly equal to its previous value,
whether the fetch succeeds or fails. -/
theorem claim_c10 (t : Nat) (r : Option TitleWordCountResponse)
    (now : String) (s : EState) (h : ∀ td ∈ s.titleData, td.title ≠ t) :
    (loadTitleWordCount t r now s).titleData = s.titleData := by
  cases r with
  | none => rfl
  | some resp =>
    have hred : loadTitleWordCount t (some resp) now s =
        if resp.word_count = 0 then s
        else { s with titleData := s.titleData.map (fun td =>
          if td.title = t then
            { td with wordCount := resp.word_count,
                      lastUpdated := dateOr resp.date now }
          else td) } := rfl
    by_cases hz : resp.word_count = 0
    · rw [hred, if_pos hz]
    · rw [hred, if_neg hz]
      exact map_keymatch_id t _ s.titleData h

/-- Witness for C10: refreshing the absent title 99 on a state holding
only title 1 leaves `titleData` unchanged even though the fetch
succeeded. -/
theorem claim_c10_witness :
    (loadTitleWordCount 99 (some ⟨500, "2024-03-03"⟩) "now"
        idleState).titleData = idleState.titleData :=
  claim_c10 99 (some ⟨500, "2024-03-03"⟩) "now" idleState (by decide)

/-- Claim C1: the claim that the filter never mutates the input trees is
violated by the code — on the forest with a non-matching root over one
matching and one non-matching child, computing `filteredAgencies` for
query `"alpha"` overwrites the root's `children` in place (the
`agency.children = matchingChildren` assignment), so after the call the
root no longer has its original children sequence. -/
theorem claim_c1_bug :
    (filteredAgenciesPost rootForest "alpha").map
        (fun a => (a.children).length) ≠
      rootForest.map (fun a => (a.children).length) := by
  simp +decide [filteredAgenciesPost, searchAgenciesPost, searchAgencies,
    rootForest, alphaAgency, betaAgency, Agency.children]

/-- Claim C2 counterexample: right after the synchronous part of
`selectAgency` — i.e. before any newly fetched data has arrived — the
three per-agency collections still hold the previous agency's data; they
are not cleared, contradicting the claim. -/
theorem claim_c2_cex :
    (selectAgencySync epaAgency loadedState).titleData ≠ [] ∧
    (selectAgencySync epaAgency loadedState).selectedAgencyHistory ≠ [] ∧
    (selectAgencySync epaAgency loadedState).selectedAgencyChanges ≠ [] := by
  decide

/-- Claim C2 as amended: `selectAgency(a)` synchronously sets
`selectedAgency` to `a` and clears `selectedTitle`, but leaves the three
per-agency collections holding their previous values (for an agency with
at least one CFR reference); each collection is only replaced when its own
load settles — the fetched value on success, `[]` on failure. -/
theorem claim_c2_amended (a : Agency) (s : EState)
    (h : a.cfr_references ≠ []) :
    (selectAgencySync a s).selectedAgency = some a ∧
    (selectAgencySync a s).selectedTitle = none ∧
    (selectAgencySync a s).selectedAgencyHistory = s.selectedAgencyHistory ∧
    (selectAgencySync a s).selectedAgencyChanges = s.selectedAgencyChanges ∧
    (selectAgencySync a s).titleData = s.titleData ∧
    (∀ r, (loadAgencyHistory r (selectAgencySync a s)).selectedAgencyHistory
        = r.getD []) ∧
    (∀ r, (loadAgencyChanges r (selectAgencySync a s)).selectedAgencyChanges
        = r.getD []) ∧
    (∀ (oracle : Nat → Option TitleWordCountResponse) (now : String),
      (loadTitleData oracle now a (selectAgencySync a s)).titleData =
        loadTitleDataResult oracle now ((a.cfr_references).map (·.title))) := by
  have hne : (a.cfr_references).isEmpty = false := by
    cases hemp : (a.cfr_references).isEmpty
    · rfl
    · exact absurd (List.isEmpty_iff.mp hemp) h
  have hsel : selectAgencySync a s =
      { s with selectedAgency := some a, selectedTitle := none } := by
    rw [selectAgencySync]
    simp [hne]
  exact ⟨by rw [hsel], by rw [hsel], by rw [hsel], by rw [hsel], by rw [hsel],
    fun r => rfl, fun r => rfl, fun oracle now => rfl⟩

/-- Witness for the amended C2 at a concrete agency and state. -/
theorem claim_c2_amended_witness :
    (selectAgencySync epaAgency loadedState).selectedTitle = none ∧
    (selectAgencySync epaAgency loadedState).titleData =
      loadedState.titleData :=
  ⟨(claim_c2_amended epaAgency loadedState (by decide)).2.1,
   (claim_c2_amended epaAgency loadedState (by decide)).2.2.2.2.1⟩

/-- Claim C3 counterexample: with no agency selected at all — so title 99
is certainly not among the selected agency's referenced titles —
`selectTitle(99)` is not a no-op: it changes `selectedTitle`. -/
theorem claim_c3_cex :
    idleState.selectedAgency = none ∧
    (selectTitleSync 99 idleState).selectedTitle ≠
      idleState.selectedTitle :=
  ⟨rfl, by decide⟩

/-- Claim C3 as amended: `selectTitle(t)` performs no validation against
the selected agency: it always sets `selectedTitle` to `t` (all other
fields unchanged) and issues the single-title fetch; when no `titleData`
entry carries title `t`, the refresh then leaves `titleData` exactly as it
was — the invalid selection is silently absorbed rather than surfaced. -/
theorem claim_c3_amended (t : Nat) (s : EState) :
    (selectTitleSync t s).selectedTitle = some t ∧
    (selectTitleSync t s).agencies = s.agencies ∧
    (selectTitleSync t s).selectedAgency = s.selectedAgency ∧
    (selectTitleSync t s).selectedAgencyHistory = s.selectedAgencyHistory ∧
    (selectTitleSync t s).selectedAgencyChanges = s.selectedAgencyChanges ∧
    (selectTitleSync t s).titleData = s.titleData ∧
    (selectTitleSync t s).searchQuery = s.searchQuery ∧
    ∀ (r : Option TitleWordCountResponse) (now : String),
      (∀ td ∈ s.titleData, td.title ≠ t) →
      (loadTitleWordCount t r now (selectTitleSync t s)).titleData =
        s.titleData := by
  refine ⟨rfl, rfl, rfl, rfl, rfl, rfl, rfl, ?_⟩
  intro r now h
  cases r with
  | none => rfl
  | some resp =>
    have hred : loadTitleWordCount t (some resp) now (selectTitleSync t s) =
        if resp.word_count = 0 then selectTitleSync t s
        else { selectTitleSync t s with
          titleData := (selectTitleSync t s).titleData.map (fun td =>
            if td.title = t then
              { td with wordCount := resp.word_count,
                        lastUpdated := dateOr resp.date now }
            else td) } := rfl
    by_cases hz : resp.word_count = 0
    · rw [hred, if_pos hz]
      rfl
    · rw [hred, if_neg hz]
      exact map_keymatch_id t _ s.titleData h

/-- Witness for the amended C3 at a concrete state. -/
theorem claim_c3_amended_witness :
    (selectTitleSync 99 idleState).selectedTitle = some 99 ∧
    (loadTitleWordCount 99 (some ⟨500, "2024-02-02"⟩) "now"
        (selectTitleSync 99 idleState)).titleData = idleState.titleData :=
  ⟨(claim_c3_amended 99 idleState).1,
   (claim_c3_amended 99 idleState).2.2.2.2.2.2.2
     (some ⟨500, "2024-02-02"⟩) "now" (by decide)⟩

/-- Claim C4 counterexample: for query `"parent"` the parent node matches
directly and is returned with its full subtree — its non-matching child
(which has no matching descendant either) is retained, although filtering
the parent's children with the same query yields `[]`; the claim's
promised pruning of a direct match's non-matching descendants does not
happen. -/
theorem claim_c4_cex :
    filteredAgencies parentForest "parent" = parentForest ∧
    agencyMatches "parent" widgetAgency = false ∧
    hasMatchDesc "parent" (widgetAgency.children) = false ∧
    searchAgencies "parent" (parentAgency.children) = [] := by
  refine ⟨?_, by decide, ?_, ?_⟩
  · simp +decide [filteredAgencies, searchAgencies, parentForest,
      parentAgency, widgetAgency]
  · simp +decide [hasMatchDesc, widgetAgency, Agency.children]
  · simp +decide [searchAgencies, parentAgency, widgetAgency, Agency.children]

/-- Claim C4 as amended: a node that matches the query directly is always
kept together with its entire subtree — the filter returns it as-is and
never passes its children through the filter, so a direct match's
non-matching descendants are retained, not pruned. -/
theorem claim_c4_amended (q n : String) (d : Option String) (s : String)
    (r : List CFRReference) (cs rest : List Agency)
    (h : agencyMatches q (Agency.mk n d s r cs) = true) :
    searchAgencies q (Agency.mk n d s r cs :: rest) =
      Agency.mk n d s r cs :: searchAgencies q rest := by
  rw [searchAgencies, if_pos h]

/-- Witness for the amended C4: the matching parent is returned unchanged,
with its non-matching child still below it. -/
theorem claim_c4_amended_witness :
    searchAgencies "parent"
        [Agency.mk "Parent Department" none "parent" [] [widgetAgency]] =
      [Agency.mk "Parent Department" none "parent" [] [widgetAgency]] := by
  rw [claim_c4_amended "parent" "Parent Department" none "parent" []
    [widgetAgency] [] (by decide), searchAgencies]

/-- Claim C5 counterexample: the code does not trim the query — for the
whitespace-only query `" "` on a one-node forest whose name contains no
space, `filteredAgencies` filters with the literal space and returns the
empty forest rather than the input forest. -/
theorem claim_c5_cex :
    (filteredAgencies xForest " ").length = 0 ∧ xForest.length = 1 := by
  constructor
  · simp +decide [filteredAgencies, searchAgencies, xForest]
  · rfl

/-- Claim C5 as amended: only a query that is exactly the empty string
makes `filteredAgencies` return the input forest unchanged (the identity,
no copy); queries are not trimmed, so whitespace-only queries are searched
literally. -/
theorem claim_c5_amended (as : List Agency) : filteredAgencies as "" = as := by
  rw [filteredAgencies, if_pos (by decide : lowerStr "" = "")]

/-- Claim C6 counterexample: the returned forest for query `"root"`
contains a node (the matching root's non-matching child) that neither
matches nor has any matching descendant, so the claim's no-false-inclusion
property fails as stated. -/
theorem claim_c6_cex :
    soundStrict "root" (filteredAgencies leafForest "root") = false := by
  simp +decide [filteredAgencies, searchAgencies, soundStrict, hasMatchDesc,
    leafForest]

/-- Claim C6 as amended: for every non-empty query, every node of the
returned forest matches the lower-cased query directly (by display name
falling back to name, or by a CFR title number rendered as a string), has
a matching descendant in the returned forest, or lies below a directly
matching returned node; and the returned forest keeps the input nodes in
input order at every level, pruning but never reordering or inventing. -/
theorem claim_c6_amended (as : List Agency) (q : String) (h : q ≠ "") :
    soundR (lowerStr q) false (filteredAgencies as q) = true ∧
    PrunedF (filteredAgencies as q) as := by
  have hq : lowerStr q ≠ "" := lowerStr_ne_empty q h
  rw [filteredAgencies, if_neg hq]
  exact ⟨soundR_searchAgencies _ _, prunedF_searchAgencies _ _⟩

/-- Witness for the amended C6 at a concrete forest and query. -/
theorem claim_c6_amended_witness :
    soundR (lowerStr "root") false (filteredAgencies leafForest "root")
        = true ∧
    PrunedF (filteredAgencies leafForest "root") leafForest :=
  claim_c6_amended leafForest "root" (by decide)

end CfrSniff
